import Mathlib

/-!
Verification development for the audio/video conversation orchestrator.

The definitions below are a shallow embedding of the TypeScript sources:

* `AudioResampler`  — `src/utils/audio-resampler.ts`
* `AudioCapture`    — the `AudioCapture` class (`audio-capture.ts`)
* `SessionManager`  — the `SessionManager` class (`session-manager.ts`)
* `OpenAIRealtime`  — the `OpenAIRealtimeClient` class (`openai-realtime.ts`)

JavaScript numbers are modelled by exact rationals (`ℚ`); for every
computation embedded here the double-precision evaluation agrees with the
exact one on the ranges involved.  PCM16 sample buffers are lists of
integers, byte buffers are lists of naturals below 256.
-/

/-- Truncation toward zero, as the `ToIntegerOrInfinity` step of
`DataView.setInt16` performs on its numeric argument. -/
def jsTruncToInt (q : ℚ) : ℤ := if 0 ≤ q then ⌊q⌋ else ⌈q⌉

/-- Round a rational to the nearest integer, ties to even — the rounding
step of IEEE-754 binary64 arithmetic. -/
def roundHalfEven (q : ℚ) : ℤ :=
  if q - (⌊q⌋ : ℚ) < 1 / 2 then ⌊q⌋
  else if 1 / 2 < q - (⌊q⌋ : ℚ) then ⌊q⌋ + 1
  else if ⌊q⌋ % 2 = 0 then ⌊q⌋ else ⌊q⌋ + 1

/-- Binary64 rounding of an exact rational: scale into the 53-bit mantissa
window of the value's binade and round to nearest, ties to even.  Subnormal
and overflow thresholds are far outside the magnitudes that occur here and
are not modelled. -/
def fl (q : ℚ) : ℚ :=
  if q = 0 then 0
  else if 0 < q then
    (roundHalfEven (q / 2 ^ (Int.log 2 q - 52)) : ℚ) * 2 ^ (Int.log 2 q - 52)
  else
    -((roundHalfEven (-q / 2 ^ (Int.log 2 (-q) - 52)) : ℚ) * 2 ^ (Int.log 2 (-q) - 52))

/-- Session states of the orchestrator (`ConnectionState` in `types/websocket.ts`). -/
inductive ConnectionState
  | idle
  | connecting
  | connected
  | ready
  | active
  | ending
  | error
  | closed
deriving DecidableEq, Repr

/-- Configuration of the resampler (`ResamplerConfig`). -/
structure ResamplerConfig where
  sourceSampleRate : ℕ
  targetSampleRate : ℕ
deriving DecidableEq, Repr

namespace AudioResampler

/-- JavaScript `Math.round`: round half toward positive infinity. -/
def jsRound (q : ℚ) : ℤ := ⌊q + 1 / 2⌋

/-- `AudioResampler.resample`: linear interpolation between the two nearest
source samples at each target index; identity when the two rates agree.
Arithmetic is modelled exactly over `ℚ`; the program evaluates the length
expression in binary64 doubles, which `resampleLengthJS` below models
separately — the two agree at dyadic rate ratios such as the fixed
24000 to 16000 conversion but can differ elsewhere. -/
def resample (cfg : ResamplerConfig) (samples : List ℤ) : List ℤ :=
  if cfg.sourceSampleRate = cfg.targetSampleRate then samples
  else
    let rateQuotient : ℚ := (cfg.sourceSampleRate : ℚ) / (cfg.targetSampleRate : ℚ)
    let outputLength : ℕ := (⌊(samples.length : ℚ) / rateQuotient⌋).toNat
    (List.range outputLength).map (fun (i : ℕ) =>
      let sourceIndex : ℚ := (i : ℚ) * rateQuotient
      let index1 : ℕ := (⌊sourceIndex⌋).toNat
      let index2 : ℕ := min (index1 + 1) (samples.length - 1)
      let fraction : ℚ := sourceIndex - (index1 : ℚ)
      jsRound ((samples.getD index1 0 : ℚ) * (1 - fraction)
        + (samples.getD index2 0 : ℚ) * fraction))

/-- Length of the resampled buffer: the floor expression of the source,
rewritten as natural division. -/
theorem resample_length_eq (cfg : ResamplerConfig) (samples : List ℤ)
    (hne : cfg.sourceSampleRate ≠ cfg.targetSampleRate) :
    (resample cfg samples).length
      = samples.length * cfg.targetSampleRate / cfg.sourceSampleRate := by
  unfold resample
  rw [if_neg hne, List.length_map, List.length_range]
  rw [div_div_eq_mul_div]
  have hcast : (samples.length : ℚ) * (cfg.targetSampleRate : ℚ)
      = ((samples.length * cfg.targetSampleRate : ℕ) : ℚ) := by push_cast; ring
  rw [hcast, Int.floor_toNat, Nat.floor_div_nat, Nat.floor_natCast]

/-- Length of the resampled buffer as the JS engine computes it: the
source's `Math.floor(samples.length / ratio)` with `ratio` and the division
evaluated in binary64 double precision (an integer length below `2^53` is
itself exactly representable and needs no rounding). -/
def resampleLengthJS (src tgt len : ℕ) : ℤ :=
  ⌊fl ((len : ℚ) / fl ((src : ℚ) / (tgt : ℚ)))⌋

/-- Value of one base64 alphabet character, `none` for characters outside
the alphabet (this is where `atob` raises its decode error). -/
def base64CharVal (c : Char) : Option ℕ :=
  if 'A' ≤ c ∧ c ≤ 'Z' then some (c.toNat - 65)
  else if 'a' ≤ c ∧ c ≤ 'z' then some (c.toNat - 97 + 26)
  else if '0' ≤ c ∧ c ≤ '9' then some (c.toNat - 48 + 52)
  else if c = '+' then some 62
  else if c = '/' then some 63
  else none

/-- Look up every character of the stripped input, failing on the first
character outside the base64 alphabet. -/
def mapBase64Vals : List Char → Option (List ℕ)
  | [] => some []
  | c :: rest =>
    match base64CharVal c, mapBase64Vals rest with
    | some v, some vs => some (v :: vs)
    | _, _ => none

/-- Reassemble six-bit groups into bytes: four groups give three bytes, a
final group of two or three gives one or two bytes (spare low bits dropped). -/
def sixBitsToBytes : List ℕ → List ℕ
  | v0 :: v1 :: v2 :: v3 :: rest =>
    (v0 * 4 + v1 / 16) :: ((v1 % 16) * 16 + v2 / 4) :: ((v2 % 4) * 64 + v3)
      :: sixBitsToBytes rest
  | [v0, v1] => [v0 * 4 + v1 / 16]
  | [v0, v1, v2] => [v0 * 4 + v1 / 16, (v1 % 16) * 16 + v2 / 4]
  | _ => []

/-- Remove up to two trailing padding characters. -/
def stripBase64Pad (cs : List Char) : List Char :=
  match cs.reverse with
  | '=' :: '=' :: r => r.reverse
  | '=' :: r => r.reverse
  | _ => cs

/-- The platform `atob` (forgiving-base64 decode): strip ASCII whitespace,
strip padding when the length is a multiple of four, fail when the remaining
length is 1 mod 4 or any character is outside the alphabet. -/
def atob (s : String) : Option (List ℕ) :=
  let cs := s.data.filter (fun c =>
    !(c.toNat == 9 || c.toNat == 10 || c.toNat == 12 || c.toNat == 13 || c.toNat == 32))
  let cs := if cs.length % 4 = 0 then stripBase64Pad cs else cs
  if cs.length % 4 = 1 then none
  else (mapBase64Vals cs).map sixBitsToBytes

/-- Reinterpret an unsigned 16-bit value as signed (two's complement). -/
def toSigned16 (u : ℕ) : ℤ :=
  if u < 32768 then (u : ℤ) else (u : ℤ) - 65536

/-- Reinterpret a little-endian byte buffer as 16-bit signed samples, as the
`Int16Array` view over the decoded buffer does. -/
def bytesToInt16 : List ℕ → List ℤ
  | b0 :: b1 :: rest => toSigned16 (b0 + 256 * b1) :: bytesToInt16 rest
  | _ => []

/-- Errors of `AudioResampler.base64ToPCM16`: `invalidBase64` is the `atob`
decode error; `bufferLengthOdd` is the `RangeError` raised by the
`Int16Array` constructor when the decoded buffer has odd byte length. -/
inductive DecodeErr
  | invalidBase64
  | bufferLengthOdd
deriving DecidableEq, Repr

/-- `AudioResampler.base64ToPCM16`: decode base64 and view the bytes as a
PCM16 sample array; both failure modes are rethrown to the caller. -/
def base64ToPCM16 (s : String) : Except DecodeErr (List ℤ) :=
  match atob s with
  | none => .error .invalidBase64
  | some bytes =>
    if bytes.length % 2 = 0 then .ok (bytesToInt16 bytes)
    else .error .bufferLengthOdd

/-- Little-endian bytes of one sample, as `DataView.setInt16` stores them
(the value is reduced to 16 bits two's complement first). -/
def int16LEBytes (v : ℤ) : List ℕ :=
  let u := (v % 65536).toNat
  [u % 256, u / 256]

/-- `AudioResampler.pcm16ToUint8Array`: pack samples into a little-endian
byte buffer. -/
def pcm16ToUint8Array (samples : List ℤ) : List ℕ :=
  samples.flatMap int16LEBytes

/-- `AudioResampler.resampleFromBase64`: decode, resample, repack. -/
def resampleFromBase64 (cfg : ResamplerConfig) (base64Audio : String) :
    Except DecodeErr (List ℕ) :=
  (base64ToPCM16 base64Audio).map fun pcm16Samples =>
    pcm16ToUint8Array (resample cfg pcm16Samples)

theorem bytesToInt16_length (bytes : List ℕ) :
    (bytesToInt16 bytes).length = bytes.length / 2 := by
  induction bytes using bytesToInt16.induct with
  | case1 b0 b1 rest ih => simp [bytesToInt16, ih]; omega
  | case2 l h => cases l with
    | nil => simp [bytesToInt16]
    | cons b0 rest =>
      cases rest with
      | nil => simp [bytesToInt16]
      | cons b1 r => exact absurd rfl (h b0 b1 r)

theorem pcm16ToUint8Array_length (samples : List ℤ) :
    (pcm16ToUint8Array samples).length = 2 * samples.length := by
  induction samples with
  | nil => simp [pcm16ToUint8Array]
  | cons v rest ih =>
    simp [pcm16ToUint8Array, int16LEBytes, List.flatMap_cons] at ih ⊢
    omega

end AudioResampler

namespace AudioCapture

/-- One sample of `AudioCapture.convertToPCM16`: clamp to `[-1, 1]`, scale a
negative sample by `0x8000` and a non-negative one by `0x7FFF`, then store
with `setInt16` (which truncates toward zero). -/
def toPCM16Value (sample : ℚ) : ℤ :=
  let s := max (-1) (min 1 sample)
  jsTruncToInt (if s < 0 then s * 32768 else s * 32767)

/-- `AudioCapture.convertToPCM16`: two bytes per input sample, little-endian,
written into a fresh buffer of `2 * length` bytes. -/
def convertToPCM16 (float32Array : List ℚ) : List ℕ :=
  AudioResampler.pcm16ToUint8Array (float32Array.map toPCM16Value)

/-- `AudioCapture.detectVoiceActivity`: root-mean-square energy of the
analyser's byte-scale time-domain data against the configured threshold.
The source compares `Math.sqrt(sum / bufferLength) > threshold`; since both
sides are non-negative this is equivalent to the squared comparison used
here, which keeps the definition inside exact rational arithmetic. -/
def detectVoiceActivity (threshold : ℚ) (analyserData : List ℕ) : Bool :=
  let sum : ℚ := (analyserData.map
    (fun b => (((b : ℚ) - 128) / 128) * (((b : ℚ) - 128) / 128))).sum
  decide (threshold * threshold < sum / (analyserData.length : ℚ))

/-- Input visible to one invocation of the audio-process callback: the float
samples of the captured frame and the analyser's time-domain byte data. -/
structure CapturedFrame where
  inputData : List ℚ
  analyserData : List ℕ

/-- Events the capture pipeline can emit from one frame callback. -/
inductive CaptureEvent
  | audioEv (data : List ℕ) (timestamp : ℕ) (voiceActivity : Bool)
  | voiceDetectedEv
deriving DecidableEq, Repr

/-- `AudioCapture.processAudio`: bail out when not capturing or the analyser
is gone; classify voice activity; convert the frame to PCM16; emit the
`audio` event only when the pipeline's own mute flag is clear, and the
`voiceDetected` event only when voice is active and the flag is clear. -/
def processAudio (isCapturing hasAnalyser isMuted : Bool) (threshold : ℚ)
    (now : ℕ) (frame : CapturedFrame) : List CaptureEvent :=
  if ¬isCapturing ∨ ¬hasAnalyser then []
  else
    let voiceActivity := detectVoiceActivity threshold frame.analyserData
    let pcmData := convertToPCM16 frame.inputData
    (if ¬isMuted then [.audioEv pcmData now voiceActivity] else [])
      ++ (if voiceActivity ∧ ¬isMuted then [.voiceDetectedEv] else [])

end AudioCapture

/-- Split a list into consecutive chunks of `n` elements; the final chunk
keeps whatever remains (it may be shorter, never empty, never dropped). -/
def chunksOf (n : ℕ) : List α → List (List α)
  | [] => []
  | x :: xs => (x :: xs.take (n - 1)) :: chunksOf n (xs.drop (n - 1))
termination_by l => l.length
decreasing_by simp [List.length_drop]; omega

namespace SessionManager

/-- Observable state of one `SessionManager`: the `ConnectionState` field and
which owned resources currently exist (clients and timers are modelled by
their presence, capture by its running flag). -/
structure SM where
  state : ConnectionState
  openaiClient : Bool
  simliClient : Bool
  previewTimeout : Bool
  audioCapturing : Bool
  sessionId : Bool
deriving DecidableEq, Repr

/-- A freshly constructed manager: state `idle`, no clients, no timer. -/
def initialSM : SM :=
  { state := .idle, openaiClient := false, simliClient := false,
    previewTimeout := false, audioCapturing := false, sessionId := false }

/-- Environment of one run: which credentials the store holds and whether
each remote handshake would succeed. -/
structure Env where
  openaiKey : Bool
  simliKey : Bool
  openaiConnectOk : Bool
  simliConnectOk : Bool
deriving DecidableEq, Repr

/-- Errors thrown out of `initialize`: the two key-loading failures are the
`Failed to load API keys: ... not found in database` configuration errors. -/
inductive InitErr
  | openaiKeyMissing
  | simliKeyMissing
  | openaiConnectFailed
  | simliConnectFailed
deriving DecidableEq, Repr

/-- `SessionManager.stopPreview`: clear the idle timer; when a Simli client
exists and the session is not active, either keep it alive (pause only) or
close and release it. -/
def stopPreview (keepConnectionAlive : Bool) (s : SM) : SM :=
  let s1 := { s with previewTimeout := false }
  if s1.simliClient ∧ s1.state ≠ ConnectionState.active then
    if keepConnectionAlive then s1
    else { s1 with simliClient := false }
  else s1

/-- Success path of `SessionManager.startPreview`: keys load, the preview
Simli client connects, and the five-minute idle timer is armed.  Note that
`startPreview` never calls `setState`, so `state` is left untouched. -/
def startPreviewOk (s : SM) : SM :=
  { s with simliClient := true, previewTimeout := true }

/-- Body of the five-minute preview timer: the source guards on
`this.simliClient && this.state === 'connected'` and only then calls
`stopPreview()`. -/
def onPreviewTimeout (s : SM) : SM :=
  if s.simliClient ∧ s.state = ConnectionState.connected then stopPreview false s
  else s

/-- `SessionManager.initialize`, sequential model: set state `connecting` and
clear the preview timer, load both keys (each absence throws), connect the
speech client (the client field is assigned before the await), then reuse a
live preview avatar client or connect a fresh one, and finally set state
`connected`.  The pair returned is the state after the call together with
the error it threw, if any. -/
def initializeCall (env : Env) (s : SM) : SM × Option InitErr :=
  let s1 := { s with state := ConnectionState.connecting, previewTimeout := false }
  if ¬env.openaiKey then (s1, some .openaiKeyMissing)
  else if ¬env.simliKey then (s1, some .simliKeyMissing)
  else
    let s2 := { s1 with openaiClient := true }
    if ¬env.openaiConnectOk then (s2, some .openaiConnectFailed)
    else if s2.simliClient then ({ s2 with state := ConnectionState.connected }, none)
    else
      let s3 := { s2 with simliClient := true }
      if ¬env.simliConnectOk then (s3, some .simliConnectFailed)
      else ({ s3 with state := ConnectionState.connected }, none)

/-- Errors thrown out of `startSession`. -/
inductive StartErr
  | notConnected
  | micFailed
deriving DecidableEq, Repr

/-- `SessionManager.startSession`: throw `Not connected to services` unless
the state is `connected` or `ready`; then start capture (a denied microphone
rethrows with the state untouched); on success the state becomes `active`
and the preview audio is resumed. -/
def startSession (micOk : Bool) (s : SM) : SM × Option StartErr :=
  if s.state ≠ ConnectionState.connected ∧ s.state ≠ ConnectionState.ready then
    (s, some .notConnected)
  else if !micOk then (s, some .micFailed)
  else ({ s with audioCapturing := true, state := ConnectionState.active }, none)

/-- `SessionManager.endSession`: state `ending`, stop capture, disconnect
and release both clients, clear the video sink and the session id, state
`idle`.  The preview timer is not touched by `endSession`. -/
def endSession (s : SM) : SM :=
  { state := ConnectionState.idle, openaiClient := false, simliClient := false,
    previewTimeout := s.previewTimeout, audioCapturing := false, sessionId := false }

end SessionManager

theorem chunksOf_flatten (n : ℕ) (l : List α) : (chunksOf n l).flatten = l := by
  induction l using chunksOf.induct n with
  | case1 => simp [chunksOf]
  | case2 x xs ih => simp [chunksOf, ih]

theorem chunksOf_mem_bounds (n : ℕ) (hn : 0 < n) (l : List α) :
    ∀ c ∈ chunksOf n l, c ≠ [] ∧ c.length ≤ n := by
  induction l using chunksOf.induct n with
  | case1 => simp [chunksOf]
  | case2 x xs ih =>
    intro c hc
    simp only [chunksOf, List.mem_cons] at hc
    rcases hc with h | h
    · subst h
      refine ⟨by simp, ?_⟩
      have := List.length_take_le (n - 1) xs
      simp only [List.length_cons]
      omega
    · exact ih c h

theorem chunksOf_dropLast_length (n : ℕ) (hn : 0 < n) (l : List α) :
    ∀ c ∈ (chunksOf n l).dropLast, c.length = n := by
  induction l using chunksOf.induct n with
  | case1 => simp [chunksOf]
  | case2 x xs ih =>
    intro c hc
    rw [chunksOf] at hc
    cases hrest : chunksOf n (xs.drop (n - 1)) with
    | nil => rw [hrest] at hc; simp at hc
    | cons r rs =>
      rw [hrest] at hc
      rw [List.dropLast_cons₂] at hc
      rcases List.mem_cons.mp hc with h | h
      · subst h
        have hne : xs.drop (n - 1) ≠ [] := by
          intro hnil
          rw [hnil] at hrest
          simp [chunksOf] at hrest
        have hlen : n - 1 ≤ xs.length := by
          by_contra hlt
          push_neg at hlt
          exact hne (List.drop_eq_nil_of_le (by omega))
        simp only [List.length_cons, List.length_take]
        omega
      · rw [← hrest] at h
        exact ih c h

namespace SessionManager

/-- The orchestrator's resampler instance: `createAudioResampler(24000, 16000)`. -/
def resampler24to16 : ResamplerConfig := ⟨24000, 16000⟩

/-- Modelled from the spec: the avatar client forwards outgoing audio in
fixed-size 6000-byte chunks, the final shorter remainder included.  The
splitting itself lives in the imported `simli-client` package, whose source
is not part of this repository; only its caller (`SimliClient.sendAudioData`
in `services/simli-client.ts`) is. -/
def simliSendAudioChunks (bytes : List ℕ) : List (List ℕ) :=
  chunksOf 6000 bytes

/-- The `audioResponse` handler installed by `SessionManager.connectOpenAI`:
when a Simli client exists and the delta is non-empty, decode and resample
the chunk and hand it to the avatar client; a decoding error is caught and
the chunk dropped.  The result lists the byte chunks that reach the remote
avatar session. -/
def audioResponseRelay (hasSimliClient : Bool) (delta : String) : List (List ℕ) :=
  if hasSimliClient ∧ delta ≠ "" then
    match AudioResampler.resampleFromBase64 resampler24to16 delta with
    | .ok bytes => simliSendAudioChunks bytes
    | .error _ => []
  else []

/-- Actions the `audio`-event listener of `setupAudioCaptureListeners` can
take for one frame event. -/
inductive RelayAction
  | sendAudioToOpenAI (data : List ℕ)
  | audioLevelEv (level : ℚ)
  | statusSpeakingDetected

/-- The `audio`-event listener: forward the frame to the speech client only
while the session state is `active` and the client exists; always emit an
`audioLevel` reading derived from the voice-activity flag; emit a
`speaking detected` status when the flag is set.  The listener never reads
the mute flag. -/
def onAudioEvent (state : ConnectionState) (hasOpenaiClient : Bool)
    (data : List ℕ) (voiceActivity : Bool) : List RelayAction :=
  (if state = ConnectionState.active ∧ hasOpenaiClient
    then [.sendAudioToOpenAI data] else [])
    ++ [.audioLevelEv (if voiceActivity then 8 / 10 else 1 / 10)]
    ++ (if voiceActivity then [.statusSpeakingDetected] else [])

/-- Composition of one capture callback with the orchestrator's listener:
the actions taken for one captured frame. -/
def capturedFrameRelay (isCapturing hasAnalyser isMuted : Bool) (threshold : ℚ)
    (now : ℕ) (frame : AudioCapture.CapturedFrame) (state : ConnectionState)
    (hasOpenaiClient : Bool) : List RelayAction :=
  (AudioCapture.processAudio isCapturing hasAnalyser isMuted threshold now frame).flatMap
    fun ev => match ev with
      | .audioEv data _ voiceActivity => onAudioEvent state hasOpenaiClient data voiceActivity
      | .voiceDetectedEv => []

end SessionManager

namespace OpenAIRealtime

/-- Level of a status event. -/
inductive StatusLevel
  | info
  | success
  | warning
  | error
deriving DecidableEq, Repr

/-- Events observable from the speech client's `ws.onclose` handler. -/
inductive OAEvent
  | statusEv (level : StatusLevel)
  | disconnectedEv
deriving DecidableEq, Repr

/-- The `ws.onclose` handler of `OpenAIRealtimeClient.connect`: emit one
status event whose level is `warning` for the normal close code 1000 and
`error` for every other code, then emit `disconnected` unconditionally. -/
def wsOnClose (code : ℕ) : List OAEvent :=
  [.statusEv (if code = 1000 then .warning else .error), .disconnectedEv]

/-- Whether `onclose` rejects the `connect()` promise: `isConnected` is set
to `false` at the top of the handler, so the guard reduces to the close code
alone. -/
def oncloseRejects (code : ℕ) : Bool := !(code = 1000)

/-- Actions of the orchestrator's `disconnected` listener in
`connectOpenAI`: an `OpenAI disconnected` status at level `error` and a
re-emitted `disconnected` event, with no access to the close code. -/
inductive SMDisconnectAction
  | statusErrorOpenaiDisconnected
  | emitDisconnected
deriving DecidableEq, Repr

/-- The `disconnected` listener body, identical for every close. -/
def smOnDisconnected : List SMDisconnectAction :=
  [.statusErrorOpenaiDisconnected, .emitDisconnected]

end OpenAIRealtime

/-- C7: for every sample array and rate, resampling with equal source and
target rates returns the input unchanged. -/
theorem resample_identity_same_rate (cfg : ResamplerConfig) (s : List ℤ)
    (h : cfg.sourceSampleRate = cfg.targetSampleRate) :
    AudioResampler.resample cfg s = s := by
  simp [AudioResampler.resample, h]

/-- Witness for C7 at rate 24000 on a concrete buffer. -/
theorem resample_identity_witness :
    AudioResampler.resample ⟨24000, 24000⟩ [5, -3, 7] = [5, -3, 7] :=
  resample_identity_same_rate ⟨24000, 24000⟩ [5, -3, 7] rfl

theorem roundHalfEven_low (q : ℚ) (f : ℤ) (hf : ⌊q⌋ = f) (h2 : q - (f : ℚ) < 1 / 2) :
    roundHalfEven q = f := by
  unfold roundHalfEven
  rw [hf, if_pos h2]

theorem roundHalfEven_high (q : ℚ) (f : ℤ) (hf : ⌊q⌋ = f) (h2 : 1 / 2 < q - (f : ℚ)) :
    roundHalfEven q = f + 1 := by
  unfold roundHalfEven
  rw [hf, if_neg (by linarith), if_pos h2]

theorem int_log2_eq (q : ℚ) (z : ℤ) (hq : 0 < q)
    (h1 : (2 : ℚ) ^ z ≤ q) (h2 : q < (2 : ℚ) ^ (z + 1)) : Int.log 2 q = z := by
  have hlo : z ≤ Int.log 2 q := (Int.zpow_le_iff_le_log (by norm_num) hq).mp h1
  have hhi : Int.log 2 q < z + 1 := (Int.lt_zpow_iff_log_lt (by norm_num) hq).mp h2
  omega

theorem fl_pos_eq (q : ℚ) (z : ℤ) (hq : 0 < q) (hz : Int.log 2 q = z) :
    fl q = (roundHalfEven (q / 2 ^ (z - 52)) : ℚ) * 2 ^ (z - 52) := by
  unfold fl
  rw [if_neg (ne_of_gt hq), if_pos hq, hz]

/-- C8 counterexample: at source rate 24000, target rate 11025 and a
960-sample buffer, the program's double-precision length computation
`Math.floor(960 / (24000/11025))` evaluates to 440 (the binary64 quotient
is 440.99999999999994), while the claimed formula
`floor(960 * 11025 / 24000)` gives 441 — the exact-arithmetic model keeps
the formula, the program does not. -/
theorem resample_length_double_divergence :
    AudioResampler.resampleLengthJS 24000 11025 960 = 440
    ∧ 960 * 11025 / 24000 = 441
    ∧ (AudioResampler.resample ⟨24000, 11025⟩ (List.replicate 960 0)).length = 441 := by
  refine ⟨?_, by norm_num, ?_⟩
  · have hfl0 : fl ((24000 : ℚ) / 11025)
        = (4901877145437275 : ℚ) * 2 ^ ((1 : ℤ) - 52) := by
      have hfloor : ⌊(24000 : ℚ) / 11025 / 2 ^ ((1 : ℤ) - 52)⌋ = 4901877145437274 :=
        Int.floor_eq_iff.mpr ⟨by norm_num, by norm_num⟩
      rw [fl_pos_eq _ 1 (by norm_num)
          (int_log2_eq _ 1 (by norm_num) (by norm_num) (by norm_num)),
        roundHalfEven_high _ 4901877145437274 hfloor (by norm_num)]
      norm_num
    have hfl1 : fl ((960 : ℚ) / ((4901877145437275 : ℚ) * 2 ^ ((1 : ℤ) - 52)))
        = (7758154045587455 : ℚ) * 2 ^ ((8 : ℤ) - 52) := by
      have hfloor : ⌊(960 : ℚ) / ((4901877145437275 : ℚ) * 2 ^ ((1 : ℤ) - 52))
          / 2 ^ ((8 : ℤ) - 52)⌋ = 7758154045587455 :=
        Int.floor_eq_iff.mpr ⟨by norm_num, by norm_num⟩
      rw [fl_pos_eq _ 8 (by norm_num)
          (int_log2_eq _ 8 (by norm_num) (by norm_num) (by norm_num)),
        roundHalfEven_low _ 7758154045587455 hfloor (by norm_num)]
      norm_num
    unfold AudioResampler.resampleLengthJS
    simp only [Nat.cast_ofNat]
    rw [hfl0, hfl1]
    exact Int.floor_eq_iff.mpr ⟨by norm_num, by norm_num⟩
  · rw [AudioResampler.resample_length_eq _ _ (by decide), List.length_replicate]
    norm_num

/-- C8 as amended: in exact arithmetic the program's length expression
`floor(len / (src/tgt))` equals `floor(len * tgt / src)` for every sample
array and distinct positive rates — the embedded `resample` satisfies the
formula — but the program evaluates the expression in binary64 doubles,
which can fall one short at rate pairs whose ratio is not dyadic; at the
orchestrator's dyadic 24000 to 16000 ratio the double evaluation agrees
with the formula, exhibited at a 960-sample buffer. -/
theorem resample_length_formula_amended (s : List ℤ) (rsrc rtgt : ℕ)
    (_hsrc : 0 < rsrc) (_htgt : 0 < rtgt) (hne : rsrc ≠ rtgt) :
    (AudioResampler.resample ⟨rsrc, rtgt⟩ s).length = s.length * rtgt / rsrc
    ∧ AudioResampler.resampleLengthJS 24000 16000 960 = 960 * 16000 / 24000 := by
  refine ⟨AudioResampler.resample_length_eq ⟨rsrc, rtgt⟩ s hne, ?_⟩
  have hfl0 : fl ((24000 : ℚ) / 16000)
      = (6755399441055744 : ℚ) * 2 ^ ((0 : ℤ) - 52) := by
    have hfloor : ⌊(24000 : ℚ) / 16000 / 2 ^ ((0 : ℤ) - 52)⌋ = 6755399441055744 :=
      Int.floor_eq_iff.mpr ⟨by norm_num, by norm_num⟩
    rw [fl_pos_eq _ 0 (by norm_num)
        (int_log2_eq _ 0 (by norm_num) (by norm_num) (by norm_num)),
      roundHalfEven_low _ 6755399441055744 hfloor (by norm_num)]
    norm_num
  have hfl1 : fl ((960 : ℚ) / ((6755399441055744 : ℚ) * 2 ^ ((0 : ℤ) - 52)))
      = (5629499534213120 : ℚ) * 2 ^ ((9 : ℤ) - 52) := by
    have hfloor : ⌊(960 : ℚ) / ((6755399441055744 : ℚ) * 2 ^ ((0 : ℤ) - 52))
        / 2 ^ ((9 : ℤ) - 52)⌋ = 5629499534213120 :=
      Int.floor_eq_iff.mpr ⟨by norm_num, by norm_num⟩
    rw [fl_pos_eq _ 9 (by norm_num)
        (int_log2_eq _ 9 (by norm_num) (by norm_num) (by norm_num)),
      roundHalfEven_low _ 5629499534213120 hfloor (by norm_num)]
    norm_num
  unfold AudioResampler.resampleLengthJS
  simp only [Nat.cast_ofNat]
  rw [hfl0, hfl1]
  norm_num

/-- Witness for the amended C8 at the orchestrator's 24000 to 16000
conversion on a concrete buffer. -/
theorem resample_length_amended_witness :
    (AudioResampler.resample ⟨24000, 16000⟩ [1, 2, 3]).length = 3 * 16000 / 24000
    ∧ AudioResampler.resampleLengthJS 24000 16000 960 = 960 * 16000 / 24000 :=
  resample_length_formula_amended [1, 2, 3] 24000 16000 (by decide) (by decide) (by decide)

/-- C5: `startSession` outside `connected`/`ready` rejects with the
`Not connected to services` error and leaves the manager unchanged, and
`endSession` is idempotent and always lands in `idle`. -/
theorem start_session_guard_and_end_session_idempotent
    (s t : SessionManager.SM) (micOk : Bool)
    (h : s.state ≠ ConnectionState.connected ∧ s.state ≠ ConnectionState.ready) :
    SessionManager.startSession micOk s = (s, some SessionManager.StartErr.notConnected)
    ∧ (SessionManager.endSession t).state = ConnectionState.idle
    ∧ SessionManager.endSession (SessionManager.endSession t) = SessionManager.endSession t := by
  refine ⟨?_, rfl, rfl⟩
  unfold SessionManager.startSession
  rw [if_pos h]

/-- Witness for C5 from the freshly constructed (idle) manager. -/
theorem start_session_guard_witness :
    SessionManager.startSession true SessionManager.initialSM
        = (SessionManager.initialSM, some SessionManager.StartErr.notConnected)
    ∧ (SessionManager.endSession SessionManager.initialSM).state = ConnectionState.idle
    ∧ SessionManager.endSession (SessionManager.endSession SessionManager.initialSM)
        = SessionManager.endSession SessionManager.initialSM :=
  start_session_guard_and_end_session_idempotent
    SessionManager.initialSM SessionManager.initialSM true (by decide)

/-- C2, evaluated at the failing input: after a successful `startPreview`
from a fresh manager the state is still `idle`, so the five-minute timer
callback's `state === 'connected'` guard fails and the preview Simli client
is neither closed nor released — the automatic teardown never happens. -/
theorem preview_timeout_fires_without_teardown :
    (SessionManager.startPreviewOk SessionManager.initialSM).state = ConnectionState.idle
    ∧ (SessionManager.startPreviewOk SessionManager.initialSM).simliClient = true
    ∧ SessionManager.onPreviewTimeout (SessionManager.startPreviewOk SessionManager.initialSM)
        = SessionManager.startPreviewOk SessionManager.initialSM
    ∧ (SessionManager.onPreviewTimeout
        (SessionManager.startPreviewOk SessionManager.initialSM)).simliClient = true := by
  refine ⟨rfl, rfl, ?_, ?_⟩ <;> decide

/-- C3 counterexample: `initialize()` with the OpenAI credential absent
rejects with the key-missing configuration error, but the state afterwards
is `connecting`, not `idle`. -/
theorem initialize_missing_key_leaves_connecting :
    (SessionManager.initializeCall ⟨false, true, true, true⟩ SessionManager.initialSM).2
        = some SessionManager.InitErr.openaiKeyMissing
    ∧ (SessionManager.initializeCall ⟨false, true, true, true⟩ SessionManager.initialSM).1.state
        ≠ ConnectionState.idle := by
  decide

/-- C3 as amended: with the OpenAI credential absent, `initialize()`
rejects with the configuration error and leaves the orchestrator in
`connecting` (the entry `setState('connecting')` is never rolled back). -/
theorem initialize_missing_key_rejects_state_connecting
    (env : SessionManager.Env) (s : SessionManager.SM) (h : env.openaiKey = false) :
    SessionManager.initializeCall env s
      = ({ s with state := ConnectionState.connecting, previewTimeout := false },
         some SessionManager.InitErr.openaiKeyMissing) := by
  simp [SessionManager.initializeCall, h]

/-- Witness for the amended C3 from a fresh manager. -/
theorem initialize_missing_key_witness :
    SessionManager.initializeCall ⟨false, true, true, true⟩ SessionManager.initialSM
      = ({ SessionManager.initialSM with state := ConnectionState.connecting, previewTimeout := false },
         some SessionManager.InitErr.openaiKeyMissing) :=
  initialize_missing_key_rejects_state_connecting ⟨false, true, true, true⟩
    SessionManager.initialSM rfl

/-- C6 counterexample: a close with the normal code 1000 still emits the
`disconnected` event, and the orchestrator's `disconnected` listener always
reacts with an error status — the event is not reserved for abnormal codes. -/
theorem normal_close_still_emits_disconnected :
    OpenAIRealtime.OAEvent.disconnectedEv ∈ OpenAIRealtime.wsOnClose 1000
    ∧ OpenAIRealtime.smOnDisconnected
        = [OpenAIRealtime.SMDisconnectAction.statusErrorOpenaiDisconnected,
           OpenAIRealtime.SMDisconnectAction.emitDisconnected] := by
  decide

/-- C6 as amended: every close code emits `disconnected`; the close status
is at level `warning` exactly for the normal code 1000 and `error`
otherwise; the `connect()` promise is rejected exactly for non-1000 codes. -/
theorem close_semantics_level_and_disconnect (code : ℕ) :
    OpenAIRealtime.OAEvent.disconnectedEv ∈ OpenAIRealtime.wsOnClose code
    ∧ (OpenAIRealtime.wsOnClose code
        = [OpenAIRealtime.OAEvent.statusEv OpenAIRealtime.StatusLevel.warning,
           OpenAIRealtime.OAEvent.disconnectedEv] ↔ code = 1000)
    ∧ (OpenAIRealtime.oncloseRejects code = true ↔ code ≠ 1000) := by
  refine ⟨by simp [OpenAIRealtime.wsOnClose], ?_, ?_⟩
  · by_cases h : code = 1000 <;> simp [OpenAIRealtime.wsOnClose, h]
  · by_cases h : code = 1000 <;> simp [OpenAIRealtime.oncloseRejects, h]

/-- C9 counterexample: `"AAAA"` is well-formed base64 (it decodes to the
three bytes `[0, 0, 0]`), yet `base64ToPCM16` fails on it — the
`Int16Array` construction raises a `RangeError` on the odd buffer length,
an error case beyond malformed input. -/
theorem wellformed_base64_odd_length_fails :
    AudioResampler.atob "AAAA" = some [0, 0, 0]
    ∧ AudioResampler.base64ToPCM16 "AAAA"
        = Except.error AudioResampler.DecodeErr.bufferLengthOdd :=
  ⟨by decide, rfl⟩

/-- C9 as amended: decoding succeeds exactly on well-formed base64 whose
decoded byte length is even; malformed input fails with the base64 decode
error, and well-formed input of odd decoded length fails with the
buffer-length `RangeError` — there are no other error cases. -/
theorem base64ToPCM16_error_characterisation (s : String) :
    ((∃ pcm, AudioResampler.base64ToPCM16 s = Except.ok pcm)
        ↔ (∃ bs, AudioResampler.atob s = some bs ∧ bs.length % 2 = 0))
    ∧ (AudioResampler.base64ToPCM16 s = Except.error AudioResampler.DecodeErr.invalidBase64
        ↔ AudioResampler.atob s = none)
    ∧ (AudioResampler.base64ToPCM16 s = Except.error AudioResampler.DecodeErr.bufferLengthOdd
        ↔ ∃ bs, AudioResampler.atob s = some bs ∧ bs.length % 2 = 1) := by
  cases h : AudioResampler.atob s with
  | none =>
    refine ⟨?_, ?_, ?_⟩ <;> simp [AudioResampler.base64ToPCM16, h]
  | some bs =>
    by_cases hpar : bs.length % 2 = 0
    · refine ⟨?_, ?_, ?_⟩ <;> simp [AudioResampler.base64ToPCM16, h, hpar]
    · refine ⟨?_, ?_, ?_⟩
      · simp [AudioResampler.base64ToPCM16, h, hpar]
      · simp [AudioResampler.base64ToPCM16, h, hpar]
      · simp [AudioResampler.base64ToPCM16, h, hpar]
        omega

theorem ceil_neg32768 : ⌈(-32768 : ℚ)⌉ = -32768 := by
  have h1 : ((-32768 : ℤ) : ℚ) = (-32768 : ℚ) := by norm_num
  rw [← h1, Int.ceil_intCast]

theorem floor_32767 : ⌊(32767 : ℚ)⌋ = 32767 := by
  have h1 : ((32767 : ℤ) : ℚ) = (32767 : ℚ) := by norm_num
  rw [← h1, Int.floor_intCast]

theorem toPCM16Value_bounds (q : ℚ) :
    -32768 ≤ AudioCapture.toPCM16Value q ∧ AudioCapture.toPCM16Value q ≤ 32767 := by
  have hval : AudioCapture.toPCM16Value q
      = jsTruncToInt (if max (-1) (min 1 q) < 0 then max (-1) (min 1 q) * 32768
          else max (-1) (min 1 q) * 32767) := rfl
  rw [hval]
  set s := max (-1) (min 1 q) with hs
  have hs1 : (-1 : ℚ) ≤ s := le_max_left _ _
  have hs2 : s ≤ 1 := max_le (by norm_num) (min_le_left _ _)
  by_cases hneg : s < 0
  · rw [if_pos hneg]
    have hv1 : (-32768 : ℚ) ≤ s * 32768 := by nlinarith
    have hv2 : s * 32768 < 0 := mul_neg_of_neg_of_pos hneg (by norm_num)
    unfold jsTruncToInt
    rw [if_neg (not_le.mpr hv2)]
    constructor
    · have := Int.ceil_mono hv1
      rw [ceil_neg32768] at this
      exact this
    · have hle : ⌈s * 32768⌉ ≤ (0 : ℤ) := Int.ceil_le.mpr (by exact_mod_cast hv2.le)
      omega
  · rw [if_neg hneg]
    push_neg at hneg
    have hv1 : (0 : ℚ) ≤ s * 32767 := mul_nonneg hneg (by norm_num)
    have hv2 : s * 32767 ≤ 32767 := by nlinarith
    unfold jsTruncToInt
    rw [if_pos hv1]
    constructor
    · have h0 : (0 : ℤ) ≤ ⌊s * 32767⌋ := Int.floor_nonneg.mpr hv1
      omega
    · have := Int.floor_mono hv2
      rw [floor_32767] at this
      exact this

theorem toPCM16Value_neg_one : AudioCapture.toPCM16Value (-1) = -32768 := by
  have hval : AudioCapture.toPCM16Value (-1)
      = jsTruncToInt (if max (-1) (min 1 (-1 : ℚ)) < 0 then max (-1) (min 1 (-1 : ℚ)) * 32768
          else max (-1) (min 1 (-1 : ℚ)) * 32767) := rfl
  rw [hval]
  norm_num [jsTruncToInt, ceil_neg32768]

theorem toPCM16Value_one : AudioCapture.toPCM16Value 1 = 32767 := by
  have hval : AudioCapture.toPCM16Value 1
      = jsTruncToInt (if max (-1) (min 1 (1 : ℚ)) < 0 then max (-1) (min 1 (1 : ℚ)) * 32768
          else max (-1) (min 1 (1 : ℚ)) * 32767) := rfl
  rw [hval]
  norm_num [jsTruncToInt, floor_32767]

/-- C10: `convertToPCM16` writes exactly two bytes per input sample, every
encoded value lies in `[-32768, 32767]` (each sample is clamped to
`[-1, 1]`, negatives scale by 32768 and non-negatives by 32767, so no
overflow can occur), and the endpoints map to the extreme values. -/
theorem convertToPCM16_range_and_size (float32Array : List ℚ) (sample : ℚ) :
    (AudioCapture.convertToPCM16 float32Array).length = 2 * float32Array.length
    ∧ -32768 ≤ AudioCapture.toPCM16Value sample
    ∧ AudioCapture.toPCM16Value sample ≤ 32767
    ∧ AudioCapture.toPCM16Value (-1) = -32768
    ∧ AudioCapture.toPCM16Value 1 = 32767 := by
  refine ⟨?_, (toPCM16Value_bounds sample).1, (toPCM16Value_bounds sample).2,
    toPCM16Value_neg_one, toPCM16Value_one⟩
  unfold AudioCapture.convertToPCM16
  rw [AudioResampler.pcm16ToUint8Array_length, List.length_map]

/-- C1 counterexample: a frame captured while muted (capture running,
analyser present, mute flag set) produces no `audio` event at all — the
pipeline itself skips the emit — even though the analyser data classifies
as voice-active; so the claim that the pipeline emits for every captured
frame regardless of the mute flag, with muting enforced by the caller, is
false. -/
theorem muted_frame_emits_no_audio_event :
    AudioCapture.processAudio true true true (1 / 100) 0 ⟨[1 / 2], [255]⟩ = []
    ∧ AudioCapture.detectVoiceActivity (1 / 100) [255] = true := by
  constructor
  · simp [AudioCapture.processAudio]
  · simp only [AudioCapture.detectVoiceActivity, List.map, List.sum, List.length,
      decide_eq_true_iff, List.foldr]
    norm_num

/-- C1 as amended: the mute gate lives in the pipeline, not the caller — a
muted frame yields no events at all (neither `audio` nor `voiceDetected`),
hence nothing reaches the speech client's `sendAudioData`; an unmuted frame
is emitted carrying the computed voice-activity flag, and in the `active`
state with a speech client present its PCM16 payload is forwarded. -/
theorem mute_gate_in_pipeline_not_caller (threshold : ℚ) (now : ℕ)
    (frame : AudioCapture.CapturedFrame) (state : ConnectionState)
    (hasOpenaiClient : Bool) :
    AudioCapture.processAudio true true true threshold now frame = []
    ∧ SessionManager.capturedFrameRelay true true true threshold now frame state hasOpenaiClient = []
    ∧ AudioCapture.processAudio true true false threshold now frame
        = AudioCapture.CaptureEvent.audioEv (AudioCapture.convertToPCM16 frame.inputData) now
            (AudioCapture.detectVoiceActivity threshold frame.analyserData)
          :: (if AudioCapture.detectVoiceActivity threshold frame.analyserData
              then [AudioCapture.CaptureEvent.voiceDetectedEv] else [])
    ∧ SessionManager.RelayAction.sendAudioToOpenAI (AudioCapture.convertToPCM16 frame.inputData)
        ∈ SessionManager.capturedFrameRelay true true false threshold now frame
            ConnectionState.active true := by
  refine ⟨?_, ?_, ?_, ?_⟩
  · simp [AudioCapture.processAudio]
  · simp [SessionManager.capturedFrameRelay, AudioCapture.processAudio]
  · by_cases hv : AudioCapture.detectVoiceActivity threshold frame.analyserData
    <;> simp [AudioCapture.processAudio, hv]
  · by_cases hv : AudioCapture.detectVoiceActivity threshold frame.analyserData
    <;> simp [SessionManager.capturedFrameRelay, AudioCapture.processAudio, hv,
        SessionManager.onAudioEvent]

/-- C4: a speech audio-response chunk whose base64 payload decodes to `N`
bytes of 24000 Hz PCM16 yields exactly `floor(N/2 * 16000/24000)` samples
after resampling; the relay hands the repacked bytes to the avatar client,
whose chunking sends full 6000-byte chunks plus the shorter final remainder
— every byte is forwarded, none dropped. -/
theorem audio_relay_sample_count_and_chunking (delta : String) (bs : List ℕ) (N : ℕ)
    (hdec : AudioResampler.atob delta = some bs) (hN : bs.length = N)
    (heven : N % 2 = 0) (hne : delta ≠ "") :
    ∃ out : List ℕ,
      AudioResampler.resampleFromBase64 SessionManager.resampler24to16 delta = Except.ok out
      ∧ (AudioResampler.resample SessionManager.resampler24to16
          (AudioResampler.bytesToInt16 bs)).length = N / 2 * 16000 / 24000
      ∧ out.length = 2 * (N / 2 * 16000 / 24000)
      ∧ SessionManager.audioResponseRelay true delta = chunksOf 6000 out
      ∧ (SessionManager.audioResponseRelay true delta).flatten = out
      ∧ (∀ c ∈ SessionManager.audioResponseRelay true delta, c ≠ [] ∧ c.length ≤ 6000)
      ∧ (∀ c ∈ (SessionManager.audioResponseRelay true delta).dropLast, c.length = 6000) := by
  subst hN
  have hok : AudioResampler.base64ToPCM16 delta
      = Except.ok (AudioResampler.bytesToInt16 bs) := by
    simp [AudioResampler.base64ToPCM16, hdec, heven]
  have hslen : (AudioResampler.bytesToInt16 bs).length = bs.length / 2 :=
    AudioResampler.bytesToInt16_length bs
  have hrlen : (AudioResampler.resample SessionManager.resampler24to16
      (AudioResampler.bytesToInt16 bs)).length = bs.length / 2 * 16000 / 24000 := by
    rw [AudioResampler.resample_length_eq _ _ (by decide), hslen]
    simp [SessionManager.resampler24to16]
  have hout : AudioResampler.resampleFromBase64 SessionManager.resampler24to16 delta
      = Except.ok (AudioResampler.pcm16ToUint8Array
          (AudioResampler.resample SessionManager.resampler24to16
            (AudioResampler.bytesToInt16 bs))) := by
    unfold AudioResampler.resampleFromBase64
    rw [hok]
    rfl
  have hrelay : SessionManager.audioResponseRelay true delta
      = chunksOf 6000 (AudioResampler.pcm16ToUint8Array
          (AudioResampler.resample SessionManager.resampler24to16
            (AudioResampler.bytesToInt16 bs))) := by
    simp [SessionManager.audioResponseRelay, hne, SessionManager.simliSendAudioChunks, hout]
  refine ⟨_, hout, hrlen, ?_, hrelay, ?_, ?_, ?_⟩
  · rw [AudioResampler.pcm16ToUint8Array_length, hrlen]
  · rw [hrelay, chunksOf_flatten]
  · rw [hrelay]
    exact chunksOf_mem_bounds 6000 (by decide) _
  · rw [hrelay]
    exact chunksOf_dropLast_length 6000 (by decide) _

/-- Witness for C4 on a concrete six-byte chunk. -/
theorem audio_relay_chunking_witness :
    ∃ out : List ℕ,
      AudioResampler.resampleFromBase64 SessionManager.resampler24to16 "AAAAAAAA" = Except.ok out
      ∧ (AudioResampler.resample SessionManager.resampler24to16
          (AudioResampler.bytesToInt16 [0, 0, 0, 0, 0, 0])).length = 6 / 2 * 16000 / 24000
      ∧ out.length = 2 * (6 / 2 * 16000 / 24000)
      ∧ SessionManager.audioResponseRelay true "AAAAAAAA" = chunksOf 6000 out
      ∧ (SessionManager.audioResponseRelay true "AAAAAAAA").flatten = out
      ∧ (∀ c ∈ SessionManager.audioResponseRelay true "AAAAAAAA", c ≠ [] ∧ c.length ≤ 6000)
      ∧ (∀ c ∈ (SessionManager.audioResponseRelay true "AAAAAAAA").dropLast, c.length = 6000) :=
  audio_relay_sample_count_and_chunking "AAAAAAAA" [0, 0, 0, 0, 0, 0] 6
    (by decide) (by decide) (by decide) (by decide)
